import Mathlib

/-!
# Verification of the FileZilla socket core (`socket.cpp` / `socket.h`)

A shallow embedding of the socket runtime of the repository: the socket
event dispatcher queue (`CSocketEventDispatcher`), the owner-facing
`CSocket` operations (`Connect`, `Close`, `Read`, `Peek`, `Write`,
`SetEventHandler`, `GetErrorString`, `GetErrorDescription`,
`AddressToString`) and the worker-thread connect loop
(`CSocketThread::TryConnectHost` / `DoConnect`) and close-event logic
(`CSocketThread::SendCloseEvent`).

Platform syscalls (`socket`, `connect`, `recv`, `send`, `getnameinfo`,
`getaddrinfo`, `select`) are environmental: the embedding takes their
outcome as an explicit oracle parameter and models what the code does
with that outcome.  Error codes use the Linux/glibc numeric values of
the POSIX macros appearing in the source.  `wxString` is modelled as
`String`, pointer identities of handlers and sources as `Nat` (0 is the
null pointer).
-/

namespace FzSocket

/-! ## Error-code constants (Linux/glibc values of the macros in the source) -/

def EPERM_c : Int := 1
def EINTR_c : Int := 4
def EBADF_c : Int := 9
def EAGAIN_c : Int := 11
def ENOMEM_c : Int := 12
def EACCES_c : Int := 13
def EFAULT_c : Int := 14
def EINVAL_c : Int := 22
def ENFILE_c : Int := 23
def EMFILE_c : Int := 24
def EPIPE_c : Int := 32
def ENOTSOCK_c : Int := 88
def EMSGSIZE_c : Int := 90
def EPROTONOSUPPORT_c : Int := 93
def EOPNOTSUPP_c : Int := 95
def EAFNOSUPPORT_c : Int := 97
def EADDRINUSE_c : Int := 98
def ENETUNREACH_c : Int := 101
def ENETRESET_c : Int := 102
def ECONNABORTED_c : Int := 103
def ECONNRESET_c : Int := 104
def ENOBUFS_c : Int := 105
def EISCONN_c : Int := 106
def ENOTCONN_c : Int := 107
def ESHUTDOWN_c : Int := 108
def ETIMEDOUT_c : Int := 110
def ECONNREFUSED_c : Int := 111
def EHOSTUNREACH_c : Int := 113
def EALREADY_c : Int := 114
def EINPROGRESS_c : Int := 115
def EAI_BADFLAGS_c : Int := -1
def EAI_NONAME_c : Int := -2
def EAI_AGAIN_c : Int := -3
def EAI_FAIL_c : Int := -4
def EAI_NODATA_c : Int := -5
def EAI_FAMILY_c : Int := -6
def EAI_SOCKTYPE_c : Int := -7
def EAI_SERVICE_c : Int := -8
def EAI_ADDRFAMILY_c : Int := -9
def EAI_MEMORY_c : Int := -10
def EAI_SYSTEM_c : Int := -11
def EAI_OVERFLOW_c : Int := -12

/-! ## Wait-bit masks (`WAIT_CONNECT` .. `WAIT_CLOSE` in socket.cpp) -/

def WAIT_CONNECT : Nat := 0x01
def WAIT_READ : Nat := 0x02
def WAIT_WRITE : Nat := 0x04
def WAIT_ACCEPT : Nat := 0x08
def WAIT_CLOSE : Nat := 0x10

/-! ## Socket events (`CSocketEvent` in socket.h)

`handler` and `source` are the pointer identities stored in
`m_pSocketEventHandler` and `m_pSource`; 0 represents a null pointer.
`data` is the optional textual payload (`m_data`). -/

inductive EventType where
  | hostaddress
  | connection_next
  | connection
  | read
  | write
  | close
  deriving DecidableEq, Repr

structure CSocketEvent where
  handler : Nat
  source : Nat
  etype : EventType
  error : Int
  data : Option String
  deriving DecidableEq, Repr

/-! ## Dispatcher queue operations (`CSocketEventDispatcher`)

The dispatcher's pending list is a `List CSocketEvent`.  The two
`RemovePending` overloads compact the list in place, keeping entries
whose handler (resp. source) differs from the argument; `UpdatePending`
rewrites matching entries in place. -/

def removePendingByHandler (h : Nat) : List CSocketEvent → List CSocketEvent
  | [] => []
  | e :: rest =>
    if e.handler ≠ h then e :: removePendingByHandler h rest
    else removePendingByHandler h rest

def removePendingBySource (s : Nat) : List CSocketEvent → List CSocketEvent
  | [] => []
  | e :: rest =>
    if e.source ≠ s then e :: removePendingBySource s rest
    else removePendingBySource s rest

def updatePending (oldH oldS newH newS : Nat) (q : List CSocketEvent) :
    List CSocketEvent :=
  q.map (fun e =>
    if e.source ≠ oldS ∨ e.handler ≠ oldH then e
    else { e with source := newS, handler := newH })

/-- The queue effect of `CSocket::SetEventHandler`: with a null new handler
the pending events of the old handler are dropped; with a non-null new
handler and a non-null old handler, matching entries are retargeted; with a
null old handler nothing is done to the queue.  (`src` is the identity of
the socket, i.e. the `this` pointer passed as source.) -/
def setEventHandlerQueue (oldH src newH : Nat) (q : List CSocketEvent) :
    List CSocketEvent :=
  if newH = 0 then removePendingByHandler oldH q
  else if oldH ≠ 0 then updatePending oldH src newH src q
  else q

theorem removePendingByHandler_eq_filter (h : Nat) (q : List CSocketEvent) :
    removePendingByHandler h q = q.filter (fun e => e.handler != h) := by
  induction q with
  | nil => rfl
  | cons e rest ih =>
    by_cases hc : e.handler = h <;>
      simp [removePendingByHandler, List.filter_cons, bne_iff_ne, hc, ih]

theorem removePendingBySource_eq_filter (s : Nat) (q : List CSocketEvent) :
    removePendingBySource s q = q.filter (fun e => e.source != s) := by
  induction q with
  | nil => rfl
  | cons e rest ih =>
    by_cases hc : e.source = s <;>
      simp [removePendingBySource, List.filter_cons, bne_iff_ne, hc, ih]

/-- C9: `RemovePending(handler)` removes from the dispatcher queue exactly
the queued events whose handler equals the given handler, and
`RemovePending(source)` exactly those whose source equals the given source;
the kept events remain in their original relative order (they form a
sublist of the original queue). -/
theorem C9_removePending_exact (h s : Nat) (q : List CSocketEvent) :
    (∀ e, e ∈ removePendingByHandler h q ↔ e ∈ q ∧ e.handler ≠ h) ∧
    (removePendingByHandler h q).Sublist q ∧
    (∀ e, e ∈ removePendingBySource s q ↔ e ∈ q ∧ e.source ≠ s) ∧
    (removePendingBySource s q).Sublist q := by
  refine ⟨?_, ?_, ?_, ?_⟩
  · intro e
    rw [removePendingByHandler_eq_filter]
    simp [List.mem_filter, bne_iff_ne]
  · rw [removePendingByHandler_eq_filter]
    exact List.filter_sublist q
  · intro e
    rw [removePendingBySource_eq_filter]
    simp [List.mem_filter, bne_iff_ne]
  · rw [removePendingBySource_eq_filter]
    exact List.filter_sublist q

/-- C3: after `SetEventHandler(new)` with a non-null new handler (and the
new handler distinct from the old one), every queued event whose source is
this socket and whose handler was the previous handler has been rewritten
in place to the new handler, so no queued event for this socket still
references the previous handler; entries with a different source or a
different handler are unchanged.  The hypothesis `hq` reflects the
`wxASSERT(evt->GetSocketEventHandler())` in `SendEvent`: queued events
never carry a null handler. -/
theorem C3_setEventHandler_retargets (oldH newH src : Nat)
    (q : List CSocketEvent)
    (hnew : newH ≠ 0) (hnold : newH ≠ oldH)
    (hq : ∀ e ∈ q, e.handler ≠ 0) :
    (∀ e ∈ setEventHandlerQueue oldH src newH q,
      ¬(e.source = src ∧ e.handler = oldH)) ∧
    List.Forall₂ (fun e e' =>
        (¬(e.source = src ∧ e.handler = oldH) → e' = e) ∧
        ((e.source = src ∧ e.handler = oldH) →
          e' = { e with handler := newH }))
      q (setEventHandlerQueue oldH src newH q) := by
  unfold setEventHandlerQueue
  rw [if_neg hnew]
  by_cases hold : oldH = 0
  · rw [if_neg (by simp [hold])]
    constructor
    · intro e he hcon
      exact hq e he (hold ▸ hcon.2)
    · rw [List.forall₂_same]
      intro e he
      refine ⟨fun _ => rfl, fun hcon => absurd (hold ▸ hcon.2) (hq e he)⟩
  · rw [if_pos hold]
    constructor
    · intro e he hcon
      unfold updatePending at he
      rcases List.mem_map.mp he with ⟨a, _, rfl⟩
      by_cases hm : a.source ≠ src ∨ a.handler ≠ oldH
      · rw [if_pos hm] at hcon
        rcases hm with hm | hm <;> exact hm (by tauto)
      · rw [if_neg hm] at hcon
        exact hnold hcon.2
    · unfold updatePending
      rw [List.forall₂_map_right_iff, List.forall₂_same]
      intro e _
      constructor
      · intro hne
        rw [if_pos]
        push_neg at hne
        by_cases hs : e.source = src
        · exact Or.inr (hne hs)
        · exact Or.inl hs
      · intro hcon
        rw [if_neg (by push_neg; exact hcon), ← hcon.1]

/-- Witness for C3 at a concrete input: old handler 1, new handler 2,
source 5, a queue with one matching and one non-matching event. -/
theorem C3_setEventHandler_retargets_witness :
    (∀ e ∈ setEventHandlerQueue 1 5 2
        [⟨1, 5, EventType.read, 0, none⟩, ⟨3, 5, EventType.write, 0, none⟩],
      ¬(e.source = 5 ∧ e.handler = 1)) ∧
    List.Forall₂ (fun e e' =>
        (¬(e.source = 5 ∧ e.handler = 1) → e' = e) ∧
        ((e.source = 5 ∧ e.handler = 1) → e' = { e with handler := 2 }))
      [⟨1, 5, EventType.read, 0, none⟩, ⟨3, 5, EventType.write, 0, none⟩]
      (setEventHandlerQueue 1 5 2
        [⟨1, 5, EventType.read, 0, none⟩, ⟨3, 5, EventType.write, 0, none⟩]) :=
  C3_setEventHandler_retargets 1 2 5
    [⟨1, 5, EventType.read, 0, none⟩, ⟨3, 5, EventType.write, 0, none⟩]
    (by decide) (by decide) (by decide)

/-! ## Decimal rendering (`wxString::Format("%d", ...)` / `sprintf("%u", ...)`) -/

def digitChar (d : Nat) : Char := Char.ofNat (48 + d)

/-- The character sequence `sprintf("%u", n)` produces: the base-10 digits
of `n`, most significant first ("0" for zero). -/
def sprintfU (n : Nat) : List Char :=
  if n = 0 then ['0'] else ((Nat.digits 10 n).map digitChar).reverse

def natDecimal (n : Nat) : String := ⟨sprintfU n⟩

/-- `wxString::Format("%d", i)`: decimal rendering of a signed int. -/
def intDecimal (i : Int) : String :=
  if i < 0 then "-" ++ natDecimal i.natAbs else natDecimal i.natAbs

/-! ## The error table and `GetErrorString` / `GetErrorDescription`

The static `error_table` array in socket.cpp, in source order, for the
non-Windows (glibc) configuration: the `EAI_BADHINTS` and `EAI_PROTOCOL`
entries are compiled out (`#ifdef` not satisfied on glibc) and the
Windows-only entries are excluded.  The array's terminating sentinel
`{0, 0, 0}` is the final entry.  `wxGetTranslation` is environmental and
modelled as the identity translation. -/

structure ErrorEntry where
  code : Int
  name : String
  description : String
  deriving DecidableEq, Repr

def wxGetTranslation (s : String) : String := s

def error_table : List ErrorEntry := [
  ⟨EACCES_c, "EACCES", "Permission denied"⟩,
  ⟨EADDRINUSE_c, "EADDRINUSE", "Local address in use"⟩,
  ⟨EAFNOSUPPORT_c, "EAFNOSUPPORT", "The specified address family is not supported"⟩,
  ⟨EINPROGRESS_c, "EINPROGRESS", "Operation in progress"⟩,
  ⟨EINVAL_c, "EINVAL", "Invalid argument passed"⟩,
  ⟨EMFILE_c, "EMFILE", "Process file table overflow"⟩,
  ⟨ENFILE_c, "ENFILE", "System limit of open files exceeded"⟩,
  ⟨ENOBUFS_c, "ENOBUFS", "Out of memory"⟩,
  ⟨ENOMEM_c, "ENOMEM", "Out of memory"⟩,
  ⟨EPERM_c, "EPERM", "Permission denied"⟩,
  ⟨EPROTONOSUPPORT_c, "EPROTONOSUPPORT", "Protocol not supported"⟩,
  ⟨EAGAIN_c, "EAGAIN", "Resource temporarily unavailable"⟩,
  ⟨EALREADY_c, "EALREADY", "Operation already in progress"⟩,
  ⟨EBADF_c, "EBADF", "Bad file descriptor"⟩,
  ⟨ECONNREFUSED_c, "ECONNREFUSED", "Connection refused by server"⟩,
  ⟨EFAULT_c, "EFAULT", "Socket address outside address space"⟩,
  ⟨EINTR_c, "EINTR", "Interrupted by signal"⟩,
  ⟨EISCONN_c, "EISCONN", "Socket already connected"⟩,
  ⟨ENETUNREACH_c, "ENETUNREACH", "Network unreachable"⟩,
  ⟨ENOTSOCK_c, "ENOTSOCK", "File descriptor not a socket"⟩,
  ⟨ETIMEDOUT_c, "ETIMEDOUT", "Connection attempt timed out"⟩,
  ⟨EHOSTUNREACH_c, "EHOSTUNREACH", "No route to host"⟩,
  ⟨ENOTCONN_c, "ENOTCONN", "Socket not connected"⟩,
  ⟨ENETRESET_c, "ENETRESET", "Connection reset by network"⟩,
  ⟨EOPNOTSUPP_c, "EOPNOTSUPP", "Operation not supported"⟩,
  ⟨ESHUTDOWN_c, "ESHUTDOWN", "Socket has been shut down"⟩,
  ⟨EMSGSIZE_c, "EMSGSIZE", "Message too large"⟩,
  ⟨ECONNABORTED_c, "ECONNABORTED", "Connection aborted"⟩,
  ⟨ECONNRESET_c, "ECONNRESET", "Connection reset by peer"⟩,
  ⟨EPIPE_c, "EPIPE", "Local endpoint has been closed"⟩,
  ⟨EAI_ADDRFAMILY_c, "EAI_ADDRFAMILY", "Network host does not have any network addresses in the requested address family"⟩,
  ⟨EAI_AGAIN_c, "EAI_AGAIN", "Temporary failure in name resolution"⟩,
  ⟨EAI_BADFLAGS_c, "EAI_BADFLAGS", "Invalid value for ai_flags"⟩,
  ⟨EAI_FAIL_c, "EAI_FAIL", "Nonrecoverable failure in name resolution"⟩,
  ⟨EAI_FAMILY_c, "EAI_FAMILY", "The ai_family member is not supported"⟩,
  ⟨EAI_MEMORY_c, "EAI_MEMORY", "Memory allocation failure"⟩,
  ⟨EAI_NODATA_c, "EAI_NODATA", "No address associated with nodename"⟩,
  ⟨EAI_NONAME_c, "EAI_NONAME", "Neither nodename nor servname provided, or not known"⟩,
  ⟨EAI_OVERFLOW_c, "EAI_OVERFLOW", "Argument buffer overflow"⟩,
  ⟨EAI_SERVICE_c, "EAI_SERVICE", "The servname parameter is not supported for ai_socktype"⟩,
  ⟨EAI_SOCKTYPE_c, "EAI_SOCKTYPE", "The ai_socktype member is not supported"⟩,
  ⟨EAI_SYSTEM_c, "EAI_SYSTEM", "Other system error"⟩,
  ⟨0, "", ""⟩]

/-- The lookup loop shared by `GetErrorString` and `GetErrorDescription`:
scan entries until the sentinel (code 0), returning the first entry whose
code equals the argument. -/
def tableLookup (e : Int) : List ErrorEntry → Option ErrorEntry
  | [] => none
  | en :: rest =>
    if en.code = 0 then none
    else if e ≠ en.code then tableLookup e rest
    else some en

def GetErrorString (error : Int) : String :=
  match tableLookup error error_table with
  | some en => en.name
  | none => intDecimal error

def GetErrorDescription (error : Int) : String :=
  match tableLookup error error_table with
  | some en => en.name ++ " - " ++ wxGetTranslation en.description
  | none => intDecimal error

theorem string_data_append (a b : String) : (a ++ b).data = a.data ++ b.data :=
  rfl

theorem tableLookup_eq_none (e : Int) :
    ∀ l : List ErrorEntry, (∀ en ∈ l, en.code = 0 ∨ en.code ≠ e) →
      tableLookup e l = none := by
  intro l
  induction l with
  | nil => intro _; rfl
  | cons en rest ih =>
    intro h
    by_cases h0 : en.code = 0
    · simp [tableLookup, h0]
    · have hne : e ≠ en.code := by
        rcases h en (List.mem_cons_self _ _) with hc | hc
        · exact absurd hc h0
        · exact fun he => hc he.symm
      simp only [tableLookup, if_neg h0, if_pos hne]
      exact ih (fun x hx => h x (List.mem_cons_of_mem _ hx))

theorem sprintfU_ne_nil (n : Nat) : sprintfU n ≠ [] := by
  unfold sprintfU
  by_cases h : n = 0
  · simp [h]
  · rw [if_neg h]
    simp only [ne_eq, List.reverse_eq_nil_iff, List.map_eq_nil_iff]
    exact Nat.digits_ne_nil_iff_ne_zero.mpr h

theorem natDecimal_ne_empty (n : Nat) : natDecimal n ≠ "" :=
  fun h => sprintfU_ne_nil n (congrArg String.data h)

theorem intDecimal_ne_empty (i : Int) : intDecimal i ≠ "" := by
  unfold intDecimal
  by_cases h : i < 0
  · rw [if_pos h]
    intro heq
    have hd := congrArg String.data heq
    rw [string_data_append] at hd
    exact List.cons_ne_nil _ _ hd
  · rw [if_neg h]
    exact natDecimal_ne_empty _

theorem append_sep_ne_empty (a c : String) : a ++ " - " ++ c ≠ "" := by
  intro heq
  have hd := congrArg String.data heq
  rw [string_data_append, string_data_append] at hd
  rcases List.append_eq_nil.mp hd with ⟨hd1, _⟩
  rcases List.append_eq_nil.mp hd1 with ⟨_, hd3⟩
  exact List.cons_ne_nil _ _ hd3

/-- C7: `GetErrorString` and `GetErrorDescription` are total: every code in
the error table maps to its symbolic name (resp. the name, " - ", and the
translated description), every code not in the table (the sentinel code 0
included) is rendered in decimal, and `GetErrorDescription` is non-empty
for every integer code. -/
theorem C7_error_strings_total :
    (∀ en ∈ error_table, en.code ≠ 0 →
      GetErrorString en.code = en.name ∧
      GetErrorDescription en.code =
        en.name ++ " - " ++ wxGetTranslation en.description) ∧
    (∀ e : Int, (∀ en ∈ error_table, en.code = 0 ∨ en.code ≠ e) →
      GetErrorString e = intDecimal e ∧ GetErrorDescription e = intDecimal e) ∧
    (∀ e : Int, GetErrorDescription e ≠ "") := by
  refine ⟨by decide, ?_, ?_⟩
  · intro e he
    have hl := tableLookup_eq_none e error_table he
    exact ⟨by simp [GetErrorString, hl], by simp [GetErrorDescription, hl]⟩
  · intro e
    unfold GetErrorDescription
    cases hl : tableLookup e error_table with
    | none => exact intDecimal_ne_empty e
    | some en => exact append_sep_ne_empty _ _

/-- Witness for C7 at concrete codes: `ECONNREFUSED` (111) is in the table,
42 is not. -/
theorem C7_error_strings_total_witness :
    GetErrorString ECONNREFUSED_c = "ECONNREFUSED" ∧
    GetErrorString 42 = intDecimal 42 ∧
    GetErrorDescription 42 ≠ "" :=
  ⟨(C7_error_strings_total.1
      ⟨ECONNREFUSED_c, "ECONNREFUSED", "Connection refused by server"⟩
      (by decide) (by decide)).1,
   (C7_error_strings_total.2.1 42 (by decide)).1,
   C7_error_strings_total.2.2 42⟩

/-! ## C10: the 6-byte `m_pPort` buffer in `CSocketThread::Connect` -/

/-- The size of the `m_pPort` buffer allocated in `CSocketThread::Connect`
(`new char[6]`). -/
def m_pPort_size : Nat := 6

/-- The characters `sprintf(m_pPort, "%u", m_pSocket->m_port)` writes,
excluding the terminating NUL byte. -/
def connectPortString (port : Nat) : List Char := sprintfU port

/-- C10: under the 1..=65535 precondition that `CSocket::Connect`
establishes for the port, the decimal rendering occupies at most 5
characters, so the `sprintf` (digits + NUL terminator) and the
`m_pPort[5] = 0` store both stay inside the 6-byte buffer. -/
theorem C10_port_buffer_in_bounds (p : Nat) (h1 : 1 ≤ p) (h2 : p ≤ 65535) :
    (connectPortString p).length + 1 ≤ m_pPort_size ∧ 5 < m_pPort_size := by
  refine ⟨?_, by decide⟩
  have hp0 : p ≠ 0 := by omega
  unfold connectPortString sprintfU
  rw [if_neg hp0, List.length_reverse, List.length_map]
  have hlen : (Nat.digits 10 p).length = Nat.log 10 p + 1 :=
    Nat.digits_len 10 p (by norm_num) hp0
  have h5 : (10 : Nat) ^ 5 = 100000 := by norm_num
  have hlt : p < 10 ^ 5 := by rw [h5]; omega
  have hlog : Nat.log 10 p < 5 := Nat.log_lt_of_lt_pow hp0 hlt
  rw [hlen]
  simp [m_pPort_size]
  omega

/-- Witness for C10 at the largest valid port. -/
theorem C10_port_buffer_in_bounds_witness :
    (connectPortString 65535).length + 1 ≤ m_pPort_size ∧ 5 < m_pPort_size :=
  C10_port_buffer_in_bounds 65535 (by decide) (by decide)

/-! ## Worker-thread and socket state (`CSocketThread`, `CSocket`) -/

/-- Clearing the bits of `mask` from `m` (`m &= ~mask` on C ints; every bit
of `m &&& mask` is a bit of `m`, so the subtraction clears exactly them). -/
def clearBits (m mask : Nat) : Nat := m - (m &&& mask)

/-- The fields of `CSocketThread` shared with the owner under `m_sync`:
the staged host/port strings, the waiting and triggered masks, the
triggered error array and the idle-wait flag. -/
structure ThreadModel where
  pHost : Option String
  pPort : Option String
  waiting : Nat
  triggered : Nat
  triggeredErrors : List Int
  threadwait : Bool
  deriving DecidableEq, Repr

inductive SocketState where
  | none
  | listening
  | connecting
  | connected
  | closing
  | closed
  deriving DecidableEq, Repr

/-- The owner-facing `CSocket` fields the claims touch.  `id` is the
pointer identity of the socket (the `this` passed as event source),
`handler` is `m_pEvtHandler` (0 = null), `thread` is `m_pSocketThread`
(`none` = null pointer). -/
structure SocketModel where
  id : Nat
  fd : Int
  state : SocketState
  handler : Nat
  family : Int
  host : String
  port : Nat
  thread : Option ThreadModel
  deriving DecidableEq, Repr

theorem lor_land_self (a b : Nat) : (a ||| b) &&& b = b := by
  apply Nat.eq_of_testBit_eq
  intro i
  simp only [Nat.testBit_and, Nat.testBit_or]
  cases b.testBit i <;> simp

/-- The `EAGAIN` re-arm block shared by `CSocket::Read` and
`CSocket::Write`: under the worker mutex, if the wait bit is not already
set, set it and wake the worker. -/
def armWaitBit (bit : Nat) : Option ThreadModel → Option ThreadModel
  | Option.none => Option.none
  | Option.some t =>
    if t.waiting &&& bit = 0 then Option.some { t with waiting := t.waiting ||| bit }
    else Option.some t

/-- `CSocket::Read`.  The `recv` syscall is environmental: `res` is its
return value and `errnoVal` the error code (already the normalized POSIX
code on this platform) observed when `res = -1`.  Result: (return value,
`error` out-parameter, new thread state). -/
def CSocket.Read (th : Option ThreadModel) (res errnoVal : Int) :
    Int × Int × Option ThreadModel :=
  if res = -1 then
    (-1, errnoVal, if errnoVal = EAGAIN_c then armWaitBit WAIT_READ th else th)
  else (res, 0, th)

/-- `CSocket::Peek`: like `Read` with `MSG_PEEK`, but with no `EAGAIN`
re-arm block — the worker thread is never touched. -/
def CSocket.Peek (th : Option ThreadModel) (res errnoVal : Int) :
    Int × Int × Option ThreadModel :=
  if res = -1 then (-1, errnoVal, th) else (res, 0, th)

/-- `CSocket::Write`: `send` is environmental as in `Read`; on `EAGAIN`
the write wait bit is armed. -/
def CSocket.Write (th : Option ThreadModel) (res errnoVal : Int) :
    Int × Int × Option ThreadModel :=
  if res = -1 then
    (-1, errnoVal, if errnoVal = EAGAIN_c then armWaitBit WAIT_WRITE th else th)
  else (res, 0, th)

/-- Counterexample to C2: `Peek` with a valid worker whose waiting mask is
empty, hitting `EAGAIN`, returns the error but does NOT ask the worker to
arm the Read readiness bit — `CSocket::Peek` has no re-arm block. -/
theorem C2_peek_no_rearm_counterexample :
    CSocket.Peek (Option.some ⟨Option.none, Option.none, 0, 0, [0, 0, 0, 0, 0], false⟩)
        (-1) EAGAIN_c =
      (-1, EAGAIN_c,
        Option.some ⟨Option.none, Option.none, 0, 0, [0, 0, 0, 0, 0], false⟩) ∧
    (0 : Nat) &&& WAIT_READ = 0 := by
  exact ⟨rfl, rfl⟩

/-- C2 (amended): `Read`, `Peek` and `Write` return the syscall's byte
count with `err = 0` on success and `-1` with the normalized code on
error; on `EAGAIN`, `Read` and `Write` ask the worker (under its mutex) to
arm the Read resp. Write readiness bit, while `Peek` leaves the worker
untouched. -/
theorem C2_read_peek_write_amended :
    (∀ th res e, res ≠ -1 →
      CSocket.Read th res e = (res, 0, th) ∧
      CSocket.Peek th res e = (res, 0, th) ∧
      CSocket.Write th res e = (res, 0, th)) ∧
    (∀ th e, e ≠ EAGAIN_c →
      CSocket.Read th (-1) e = (-1, e, th) ∧
      CSocket.Peek th (-1) e = (-1, e, th) ∧
      CSocket.Write th (-1) e = (-1, e, th)) ∧
    (∀ t : ThreadModel, ∃ t' : ThreadModel,
      CSocket.Read (Option.some t) (-1) EAGAIN_c =
        (-1, EAGAIN_c, Option.some t') ∧ t'.waiting &&& WAIT_READ ≠ 0) ∧
    (∀ t : ThreadModel, ∃ t' : ThreadModel,
      CSocket.Write (Option.some t) (-1) EAGAIN_c =
        (-1, EAGAIN_c, Option.some t') ∧ t'.waiting &&& WAIT_WRITE ≠ 0) ∧
    (∀ th, CSocket.Peek th (-1) EAGAIN_c = (-1, EAGAIN_c, th)) := by
  refine ⟨?_, ?_, ?_, ?_, ?_⟩
  · intro th res e hres
    exact ⟨by simp [CSocket.Read, hres], by simp [CSocket.Peek, hres],
      by simp [CSocket.Write, hres]⟩
  · intro th e he
    exact ⟨by simp [CSocket.Read, he], by simp [CSocket.Peek, he],
      by simp [CSocket.Write, he]⟩
  · intro t
    by_cases hw : t.waiting &&& WAIT_READ = 0
    · refine ⟨{ t with waiting := t.waiting ||| WAIT_READ }, ?_, ?_⟩
      · simp [CSocket.Read, armWaitBit, hw]
      · simp [lor_land_self, WAIT_READ]
    · exact ⟨t, by simp [CSocket.Read, armWaitBit, hw], hw⟩
  · intro t
    by_cases hw : t.waiting &&& WAIT_WRITE = 0
    · refine ⟨{ t with waiting := t.waiting ||| WAIT_WRITE }, ?_, ?_⟩
      · simp [CSocket.Write, armWaitBit, hw]
      · simp [lor_land_self, WAIT_WRITE]
    · exact ⟨t, by simp [CSocket.Write, armWaitBit, hw], hw⟩
  · intro th
    simp [CSocket.Peek]

/-- Witness for C2 (amended) at concrete inputs. -/
theorem C2_read_peek_write_amended_witness :
    CSocket.Read Option.none 5 0 = (5, 0, Option.none) ∧
    CSocket.Peek Option.none (-1) ECONNRESET_c = (-1, ECONNRESET_c, Option.none) := by
  refine ⟨(C2_read_peek_write_amended.1 Option.none 5 0 (by decide)).1, ?_⟩
  exact (C2_read_peek_write_amended.2.1 Option.none ECONNRESET_c (by decide)).2.1

/-! ## `CSocketThread::SendCloseEvent` (event-object / Windows platform) -/

/-- `CSocketThread::SendCloseEvent` in the `__WXMSW__` (event-object)
configuration.  `handler`/`src` are the socket's handler and identity,
`closeErr` is `m_triggered_errors[4]`, `dataRemains` is the oracle for
`recv(m_fd, &buf, 1, MSG_PEEK) > 0`, `waiting`/`triggered` are the masks.
Returns the event posted to the dispatcher (if any) and the new triggered
mask. -/
def SendCloseEvent (handler src : Nat) (closeErr : Int) (dataRemains : Bool)
    (waiting triggered : Nat) : Option CSocketEvent × Nat :=
  if handler = 0 then (Option.none, triggered)
  else if closeErr = 0 ∧ dataRemains then
    if waiting &&& WAIT_READ = 0 then (Option.none, triggered)
    else (Option.some ⟨handler, src, EventType.read, 0, Option.none⟩, triggered)
  else
    (Option.some ⟨handler, src, EventType.close, closeErr, Option.none⟩,
      clearBits triggered WAIT_CLOSE)

/-- Counterexample to C6: close observed with error 0 and data remaining
to be read, but the worker is not waiting for read readiness
(`m_waiting & WAIT_READ` clear): the function emits NO event at all,
neither the synthetic `Read(0)` the claim requires nor `Close(0)`. -/
theorem C6_close_peek_counterexample :
    (SendCloseEvent 1 7 0 true 0 WAIT_CLOSE).1 = Option.none ∧
    (Option.none : Option CSocketEvent) ≠
      Option.some ⟨1, 7, EventType.read, 0, Option.none⟩ := by
  exact ⟨rfl, by decide⟩

/-- C6 (amended): with a close trigger carrying error 0 and the peek
showing data remaining, a synthetic `Read(0)` is emitted instead of
`Close(0)` only when the worker is waiting for read readiness; when it is
not, no event is emitted (the close stays triggered for a later pass).
When no data remains or the close carried an error, the `Close` event is
emitted with that error code. -/
theorem C6_close_event_amended (handler src : Nat) (closeErr : Int)
    (dataRemains : Bool) (waiting triggered : Nat) (hh : handler ≠ 0) :
    (closeErr = 0 → dataRemains = true → waiting &&& WAIT_READ ≠ 0 →
      (SendCloseEvent handler src closeErr dataRemains waiting triggered).1 =
        Option.some ⟨handler, src, EventType.read, 0, Option.none⟩) ∧
    (closeErr = 0 → dataRemains = true → waiting &&& WAIT_READ = 0 →
      (SendCloseEvent handler src closeErr dataRemains waiting triggered).1 =
        Option.none) ∧
    (¬(closeErr = 0 ∧ dataRemains = true) →
      (SendCloseEvent handler src closeErr dataRemains waiting triggered).1 =
        Option.some ⟨handler, src, EventType.close, closeErr, Option.none⟩) := by
  refine ⟨?_, ?_, ?_⟩
  · intro h0 hd hw
    simp [SendCloseEvent, hh, h0, hd, hw]
  · intro h0 hd hw
    simp [SendCloseEvent, hh, h0, hd, hw]
  · intro hnd
    have : ¬(closeErr = 0 ∧ dataRemains) := by
      intro hc; exact hnd ⟨hc.1, hc.2⟩
    simp [SendCloseEvent, hh, this]

/-- Witness for C6 (amended) at concrete inputs. -/
theorem C6_close_event_amended_witness :
    (SendCloseEvent 1 7 0 true WAIT_READ 0).1 =
      Option.some ⟨1, 7, EventType.read, 0, Option.none⟩ ∧
    (SendCloseEvent 1 7 ECONNRESET_c true 0 0).1 =
      Option.some ⟨1, 7, EventType.close, ECONNRESET_c, Option.none⟩ :=
  ⟨(C6_close_event_amended 1 7 0 true WAIT_READ 0 (by decide)).1 rfl rfl
      (by decide),
   (C6_close_event_amended 1 7 ECONNRESET_c true 0 0 (by decide)).2.2
      (by decide)⟩

/-! ## `CSocket::Close` -/

theorem removePendingByHandler_idem (h : Nat) (q : List CSocketEvent) :
    removePendingByHandler h (removePendingByHandler h q) =
      removePendingByHandler h q := by
  simp only [removePendingByHandler_eq_filter]
  exact List.filter_eq_self.mpr (fun a ha => (List.mem_filter.mp ha).2)

/-- `CSocket::Close` on a socket together with the dispatcher queue.
Under the worker mutex (when a worker exists) the descriptor is taken out
of the socket, the staged host/port strings are freed, the worker is woken
(no modelled state change: the wakeup is the self-pipe/event write), the
taken descriptor is closed (returned as the fourth component), the state
set to `none`, the triggered mask and error array cleared, and the pending
dispatcher events of the current handler removed.  Returns
(socket, queue, return value, descriptor closed). -/
def CSocket.Close (s : SocketModel) (q : List CSocketEvent) :
    SocketModel × List CSocketEvent × Int × Option Int :=
  let fd := s.fd
  let th' : Option ThreadModel :=
    match s.thread with
    | Option.none => Option.none
    | Option.some t =>
        Option.some
          { t with
            pHost := Option.none
            pPort := Option.none
            triggered := 0
            triggeredErrors := [0, 0, 0, 0, 0] }
  let closedFd : Option Int := if fd ≠ -1 then Option.some fd else Option.none
  let q' := if s.handler ≠ 0 then removePendingByHandler s.handler q else q
  ({ s with fd := -1, state := SocketState.none, thread := th' }, q', 0, closedFd)

/-- C4: `Close` always returns 0 and leaves the socket in state `none`
with no descriptor, cleared staging and triggered bits, and the pending
events of the current handler removed from the dispatcher; the old
descriptor, if any, is the one closed; and a second `Close` returns 0,
closes nothing, and leaves the configuration unchanged (idempotence). -/
theorem C4_close_idempotent (s : SocketModel) (q : List CSocketEvent) :
    (CSocket.Close s q).2.2.1 = 0 ∧
    (CSocket.Close s q).1.state = SocketState.none ∧
    (CSocket.Close s q).1.fd = -1 ∧
    (∀ t, (CSocket.Close s q).1.thread = Option.some t →
      t.pHost = Option.none ∧ t.pPort = Option.none ∧ t.triggered = 0) ∧
    (s.handler ≠ 0 → ∀ e ∈ (CSocket.Close s q).2.1, e.handler ≠ s.handler) ∧
    (CSocket.Close s q).2.2.2 =
      (if s.fd ≠ -1 then Option.some s.fd else Option.none) ∧
    CSocket.Close (CSocket.Close s q).1 (CSocket.Close s q).2.1 =
      ((CSocket.Close s q).1, (CSocket.Close s q).2.1, 0, Option.none) := by
  refine ⟨rfl, rfl, rfl, ?_, ?_, rfl, ?_⟩
  · intro t ht
    simp only [CSocket.Close] at ht
    cases hth : s.thread with
    | none => rw [hth] at ht; exact absurd ht (by simp)
    | some t0 =>
      rw [hth] at ht
      simp only [Option.some.injEq] at ht
      rw [← ht]
      exact ⟨rfl, rfl, rfl⟩
  · intro hh e he
    simp only [CSocket.Close, if_pos hh] at he
    rw [removePendingByHandler_eq_filter] at he
    have := (List.mem_filter.mp he).2
    simpa using this
  · simp only [CSocket.Close]
    by_cases hh : s.handler ≠ 0
    · simp only [if_pos hh, if_neg (by simp : ¬(-1 : Int) ≠ -1)]
      cases s.thread with
      | none => simp [removePendingByHandler_idem]
      | some t => simp [removePendingByHandler_idem]
    · simp only [if_neg hh, if_neg (by simp : ¬(-1 : Int) ≠ -1)]
      cases s.thread with
      | none => simp
      | some t => simp

/-- Witness for C4 at a concrete configuration: connected socket with a
worker, descriptor 3, handler 1, one pending event of that handler. -/
theorem C4_close_idempotent_witness :
    (CSocket.Close
        ⟨7, 3, SocketState.connected, 1, 2, "h", 21,
          Option.some ⟨Option.none, Option.none, 2, 16, [0, 0, 0, 0, 0], false⟩⟩
        [⟨1, 7, EventType.read, 0, Option.none⟩]).2.2.1 = 0 ∧
    (∀ e ∈ (CSocket.Close
        ⟨7, 3, SocketState.connected, 1, 2, "h", 21,
          Option.some ⟨Option.none, Option.none, 2, 16, [0, 0, 0, 0, 0], false⟩⟩
        [⟨1, 7, EventType.read, 0, Option.none⟩]).2.1, e.handler ≠ 1) := by
  have h := C4_close_idempotent
    ⟨7, 3, SocketState.connected, 1, 2, "h", 21,
      Option.some ⟨Option.none, Option.none, 2, 16, [0, 0, 0, 0, 0], false⟩⟩
    [⟨1, 7, EventType.read, 0, Option.none⟩]
  exact ⟨h.1, h.2.2.2.2.1 (by decide)⟩

/-! ## `CSocket::Connect` -/

/-- glibc values of the address-family macros used by the source. -/
def AF_UNSPEC : Int := 0
def AF_INET : Int := 2
def AF_INET6 : Int := 10

/-- `CSocket::Connect(host, port, family)`.  `family` is the
`address_family` argument as its underlying C enum value (0 = `unspec`,
1 = `ipv4`, 2 = `ipv6`; the enum is int-backed, so other values are
expressible and hit the `default: return EINVAL` case).  `convOk` is the
oracle for the `m_host.mb_str()` conversion inside
`CSocketThread::Connect` (the only failure `CSocketThread::Connect`
reports: the result of `Start()` is discarded by the code).  On success
the worker is (re)created with the host and decimal port staged and the
state is `connecting`. -/
def CSocket.Connect (s : SocketModel) (host : String) (port : Nat)
    (family : Nat) (convOk : Bool) : SocketModel × Int :=
  if s.state ≠ SocketState.none then (s, EISCONN_c)
  else if port < 1 ∨ port > 65535 then (s, EINVAL_c)
  else if family ≤ 2 then
    let fam : Int :=
      if family = 0 then AF_UNSPEC else if family = 1 then AF_INET else AF_INET6
    let stagedThread : Option ThreadModel :=
      Option.some
        ⟨Option.some host, Option.some (natDecimal port), 0, 0,
         [0, 0, 0, 0, 0], false⟩
    if convOk then
      ({ s with
         state := SocketState.connecting
         family := fam
         host := host
         port := port
         thread := stagedThread },
        EINPROGRESS_c)
    else
      ({ s with
         state := SocketState.none
         family := fam
         host := host
         port := port
         thread := Option.none },
        EINVAL_c)
  else (s, EINVAL_c)

/-- C5: `Connect` returns `EISCONN` whenever the state is not `none`;
`EINVAL` whenever the port is outside 1..=65535 (port 0 and port 65536 in
particular) or the family is none of Unspec/V4/V6; and when the attempt is
successfully started (the host string conversion succeeds), it returns
`EINPROGRESS` and leaves the socket `connecting`. -/
theorem C5_connect_validation (s : SocketModel) (host : String) (port : Nat)
    (family : Nat) (convOk : Bool) :
    (s.state ≠ SocketState.none →
      CSocket.Connect s host port family convOk = (s, EISCONN_c)) ∧
    (s.state = SocketState.none → port = 0 ∨ port > 65535 →
      (CSocket.Connect s host port family convOk).2 = EINVAL_c) ∧
    (s.state = SocketState.none → 1 ≤ port → port ≤ 65535 → 2 < family →
      (CSocket.Connect s host port family convOk).2 = EINVAL_c) ∧
    (s.state = SocketState.none → 1 ≤ port → port ≤ 65535 → family ≤ 2 →
      convOk = true →
      (CSocket.Connect s host port family convOk).2 = EINPROGRESS_c ∧
      (CSocket.Connect s host port family convOk).1.state =
        SocketState.connecting) := by
  refine ⟨?_, ?_, ?_, ?_⟩
  · intro hs
    simp [CSocket.Connect, hs]
  · intro hs hp
    have hp' : port = 0 ∨ 65535 < port := by omega
    simp [CSocket.Connect, hs, hp']
  · intro hs h1 h2 hf
    have hp' : ¬(port < 1 ∨ port > 65535) := by omega
    simp [CSocket.Connect, hs, hp', Nat.not_le.mpr hf]
  · intro hs h1 h2 hf hc
    have hp' : ¬(port = 0 ∨ 65535 < port) := by omega
    constructor <;> simp [CSocket.Connect, hs, hp', hf, hc]

/-- Witness for C5 at concrete inputs: port 0 rejected, port 65536
rejected, valid connect from `none` starts with `EINPROGRESS`. -/
theorem C5_connect_validation_witness :
    (CSocket.Connect
        ⟨7, -1, SocketState.none, 1, 0, "", 0, Option.none⟩
        "127.0.0.1" 0 1 true).2 = EINVAL_c ∧
    (CSocket.Connect
        ⟨7, -1, SocketState.none, 1, 0, "", 0, Option.none⟩
        "::1" 65536 2 true).2 = EINVAL_c ∧
    (CSocket.Connect
        ⟨7, -1, SocketState.none, 1, 0, "", 0, Option.none⟩
        "127.0.0.1" 21 1 true).2 = EINPROGRESS_c := by
  refine ⟨?_, ?_, ?_⟩
  · exact (C5_connect_validation _ "127.0.0.1" 0 1 true).2.1 rfl (by decide)
  · exact (C5_connect_validation _ "::1" 65536 2 true).2.1 rfl (by decide)
  · exact ((C5_connect_validation _ "127.0.0.1" 21 1 true).2.2.2 rfl
      (by decide) (by decide) (by decide) rfl).1

/-! ## `CSocket::AddressToString` -/

/-- The `host.Find('%')` / `host.Truncate(pos)` pair: keep the characters
before the first occurrence of `c`, drop everything from `c` on (identity
when `c` does not occur, since `Find` returns -1). -/
def truncAtChar (c : Char) : List Char → List Char
  | [] => []
  | x :: xs => if x = c then [] else x :: truncAtChar c xs

/-- The zone-index stripping applied to an IPv6 host string. -/
def stripZone (s : String) : String := ⟨truncAtChar '%' s.data⟩

/-- `CSocket::AddressToString(addr, addr_len, with_port, strip_zone_index)`.
The numeric `getnameinfo` lookup is environmental: `ni` is `none` when it
fails and `some (host, port)` with the rendered numeric host and service
strings when it succeeds; `family` is `addr->sa_family`. -/
def AddressToString (ni : Option (String × String)) (family : Int)
    (with_port strip_zone_index : Bool) : String :=
  match ni with
  | Option.none => ""
  | Option.some (host0, port) =>
    let host1 :=
      if family = AF_INET6 ∧ strip_zone_index then stripZone host0 else host0
    let host2 :=
      if family = AF_INET6 ∧ with_port then "[" ++ host1 ++ "]" else host1
    if with_port then host2 ++ ":" ++ port else host2

theorem truncAtChar_eq_takeWhile (c : Char) (l : List Char) :
    truncAtChar c l = l.takeWhile (fun x => x ≠ c) := by
  induction l with
  | nil => rfl
  | cons x xs ih =>
    by_cases hx : x = c <;>
      simp [truncAtChar, List.takeWhile_cons, hx, ih]

theorem truncAtChar_not_mem (c : Char) (l : List Char) :
    c ∉ truncAtChar c l := by
  induction l with
  | nil => simp [truncAtChar]
  | cons x xs ih =>
    by_cases hx : x = c
    · simp [truncAtChar, hx]
    · simp only [truncAtChar, if_neg hx, List.mem_cons]
      rintro (h | h)
      · exact hx h.symm
      · exact ih h

theorem truncAtChar_prefix (c : Char) (l : List Char) :
    (truncAtChar c l) <+: l := by
  rw [truncAtChar_eq_takeWhile]
  exact List.takeWhile_prefix _

theorem truncAtChar_of_not_mem (c : Char) (l : List Char) (h : c ∉ l) :
    truncAtChar c l = l := by
  induction l with
  | nil => rfl
  | cons x xs ih =>
    have hx : x ≠ c := fun he => h (he ▸ List.mem_cons_self x xs)
    simp only [truncAtChar, if_neg hx]
    rw [ih (fun hm => h (List.mem_cons_of_mem _ hm))]

/-- C8: `AddressToString` returns "" when the numeric name-info lookup
fails; on success, for IPv6 with `strip_zone_index` the host is truncated
at the first `%` (the truncation is the maximal `%`-free prefix, i.e. a
`takeWhile`, and is the identity when no `%` occurs); for IPv6 with
`with_port` the host is bracketed; and with `with_port` set the result is
host, `:`, port, otherwise the host alone. -/
theorem C8_addressToString (h p : String) (family : Int) (wp sz : Bool) :
    (AddressToString Option.none family wp sz = "") ∧
    ((stripZone h).data = h.data.takeWhile (fun x => x ≠ '%') ∧
      ('%' : Char) ∉ (stripZone h).data ∧
      (stripZone h).data <+: h.data ∧
      (('%' : Char) ∉ h.data → stripZone h = h)) ∧
    (AddressToString (Option.some (h, p)) AF_INET6 true sz =
      "[" ++ (if sz then stripZone h else h) ++ "]" ++ ":" ++ p) ∧
    (AddressToString (Option.some (h, p)) AF_INET6 false sz =
      (if sz then stripZone h else h)) ∧
    (family ≠ AF_INET6 →
      AddressToString (Option.some (h, p)) family true sz = h ++ ":" ++ p ∧
      AddressToString (Option.some (h, p)) family false sz = h) := by
  refine ⟨rfl, ⟨?_, ?_, ?_, ?_⟩, ?_, ?_, ?_⟩
  · exact truncAtChar_eq_takeWhile '%' h.data
  · exact truncAtChar_not_mem '%' h.data
  · exact truncAtChar_prefix '%' h.data
  · intro hnm
    unfold stripZone
    rw [truncAtChar_of_not_mem '%' h.data hnm]
  · cases sz <;> simp [AddressToString]
  · cases sz <;> simp [AddressToString]
  · intro hfam
    exact ⟨by simp [AddressToString, hfam], by simp [AddressToString, hfam]⟩

/-- Witness for C8 at concrete inputs: an IPv6 host with a zone index,
port shown. -/
theorem C8_addressToString_witness :
    AddressToString (Option.some ("fe80::1%eth0", "21")) AF_INET6 true true =
      "[" ++ stripZone "fe80::1%eth0" ++ "]" ++ ":" ++ "21" ∧
    AddressToString (Option.some ("127.0.0.1", "21")) AF_INET true true =
      "127.0.0.1" ++ ":" ++ "21" := by
  constructor
  · have hc := (C8_addressToString "fe80::1%eth0" "21" AF_INET6 true true).2.2.1
    simpa using hc
  · exact ((C8_addressToString "127.0.0.1" "21" AF_INET true true).2.2.2.2
      (by decide)).1

/-! ## `CSocketThread::TryConnectHost` and the `DoConnect` try-address loop

The worker's view during connect: the socket fields it touches
(`m_pEvtHandler`, the socket identity used as event source, `m_fd`,
`m_state`) and its own `m_waiting` mask.  The `socket`/`connect` syscalls
and the `DoWait(WAIT_CONNECT)` loop are environmental; the `m_triggered`
bookkeeping of `DoWait` (set on trigger, cleared again by
`TryConnectHost`) nets out to no change and is absorbed into the
`WaitOutcome` oracle. -/

structure ConnState where
  handler : Nat
  src : Nat
  fd : Int
  state : SocketState
  waiting : Nat
  deriving DecidableEq, Repr

inductive WaitOutcome where
  /-- `DoWait` returned false: quit flag, detached socket or closed fd. -/
  | cancelled
  /-- Connect completion observed with `m_triggered_errors[0] = err`. -/
  | done (err : Int)
  deriving DecidableEq, Repr

inductive ConnectOutcome where
  /-- `::socket` returned -1 with the given (converted) error. -/
  | socketFail (err : Int)
  /-- `::socket` returned `fd`; `res` is the result of `::connect` after
  error-code conversion (0 success, `EINPROGRESS` pending, else the
  error); `w` is the `DoWait(WAIT_CONNECT)` outcome, consulted only when
  `res = EINPROGRESS`. -/
  | connectRes (fd : Int) (res : Int) (w : WaitOutcome)
  deriving DecidableEq, Repr

def hostAddrEvs (s : ConnState) (addrStr : String) : List CSocketEvent :=
  if s.handler ≠ 0 then
    [⟨s.handler, s.src, EventType.hostaddress, 0, Option.some addrStr⟩]
  else []

/-- The failure event of one attempt: `connection_next` if another address
record follows (`addr->ai_next`), else `connection`. -/
def attemptFailEvs (s : ConnState) (hasNext : Bool) (err : Int) :
    List CSocketEvent :=
  if s.handler ≠ 0 then
    [⟨s.handler, s.src,
      if hasNext then EventType.connection_next else EventType.connection,
      err, Option.none⟩]
  else []

def connOkEvs (s : ConnState) : List CSocketEvent :=
  if s.handler ≠ 0 then
    [⟨s.handler, s.src, EventType.connection, 0, Option.none⟩]
  else []

/-- The successful-connect update: record the descriptor, set state
`connected`, become interested in read and write. -/
def connSuccessState (s : ConnState) (fd : Int) : ConnState :=
  { s with
    fd := fd
    state := SocketState.connected
    waiting := s.waiting ||| (WAIT_READ ||| WAIT_WRITE) }

/-- `CSocketThread::TryConnectHost(addr)` for one address record.
`addrStr` is `CSocket::AddressToString(addr->ai_addr, addr->ai_addrlen)`,
`hasNext` is `addr->ai_next != 0`.  Returns the C function's return value
(1 connected, 0 try next address, -1 abort), the new state, and the
events sent to the dispatcher in order. -/
def TryConnectHost (s : ConnState) (addrStr : String) (hasNext : Bool)
    (oc : ConnectOutcome) : Int × ConnState × List CSocketEvent :=
  let evs0 := hostAddrEvs s addrStr
  match oc with
  | ConnectOutcome.socketFail err =>
      (0, s, evs0 ++ attemptFailEvs s hasNext err)
  | ConnectOutcome.connectRes fd res w =>
      if res = EINPROGRESS_c then
        match w with
        | WaitOutcome.cancelled => (-1, { s with fd := -1 }, evs0)
        | WaitOutcome.done e =>
            if e ≠ 0 then
              (0, { s with fd := -1 }, evs0 ++ attemptFailEvs s hasNext e)
            else
              (1, connSuccessState s fd, evs0 ++ connOkEvs s)
      else if res ≠ 0 then
        (0, { s with fd := -1 }, evs0 ++ attemptFailEvs s hasNext res)
      else
        (1, connSuccessState s fd, evs0 ++ connOkEvs s)

/-- The `for (addr = addressList; addr; addr = addr->ai_next)` loop of
`CSocketThread::DoConnect` together with its fall-through tail (lines
577-598): each address is tried in order; on -1 the loop aborts with state
`closed`; on success it stops with `true`; when the list is exhausted a
`Connection(ECONNABORTED)` event is sent (when a handler is set) and the
state set to `closed`.  Returns `DoConnect`'s boolean result, the final
state, and all events emitted, in order. -/
def DoConnectLoop (s : ConnState) :
    List (String × ConnectOutcome) → Bool × ConnState × List CSocketEvent
  | [] =>
      (false, { s with state := SocketState.closed },
        if s.handler ≠ 0 then
          [⟨s.handler, s.src, EventType.connection, ECONNABORTED_c,
            Option.none⟩]
        else [])
  | (a, oc) :: rest =>
      let r := TryConnectHost s a (!rest.isEmpty) oc
      if r.1 = -1 then
        (false, { r.2.1 with state := SocketState.closed }, r.2.2)
      else if r.1 ≠ 0 then (true, r.2.1, r.2.2)
      else
        let t := DoConnectLoop r.2.1 rest
        (t.1, t.2.1, r.2.2 ++ t.2.2)

/-- Whether an attempt outcome makes `TryConnectHost` fail this address and
move on (return 0). -/
def outcomeFails : ConnectOutcome → Bool
  | ConnectOutcome.socketFail _ => true
  | ConnectOutcome.connectRes _ res w =>
      if res = EINPROGRESS_c then
        match w with
        | WaitOutcome.cancelled => false
        | WaitOutcome.done e => e != 0
      else res != 0

theorem tryConnectHost_handler_src (s : ConnState) (a : String) (hn : Bool)
    (oc : ConnectOutcome) :
    (TryConnectHost s a hn oc).2.1.handler = s.handler ∧
    (TryConnectHost s a hn oc).2.1.src = s.src := by
  cases oc with
  | socketFail err => exact ⟨rfl, rfl⟩
  | connectRes fd res w =>
    simp only [TryConnectHost]
    by_cases hres : res = EINPROGRESS_c
    · rw [if_pos hres]
      cases w with
      | cancelled => exact ⟨rfl, rfl⟩
      | done e =>
        by_cases he : e = 0 <;> simp [he, connSuccessState]
    · rw [if_neg hres]
      by_cases h0 : res = 0
      · rw [if_neg (by simp [h0])]
        exact ⟨rfl, rfl⟩
      · rw [if_pos h0]
        exact ⟨rfl, rfl⟩

theorem tryConnectHost_fails_fst (s : ConnState) (a : String) (hn : Bool)
    (oc : ConnectOutcome) (hf : outcomeFails oc = true) :
    (TryConnectHost s a hn oc).1 = 0 := by
  cases oc with
  | socketFail err => rfl
  | connectRes fd res w =>
    by_cases hres : res = EINPROGRESS_c
    · cases w with
      | cancelled => simp [outcomeFails, hres] at hf
      | done e =>
        simp only [outcomeFails, if_pos hres, bne_iff_ne] at hf
        simp [TryConnectHost, hres, hf]
    · simp only [outcomeFails, if_neg hres, bne_iff_ne] at hf
      simp [TryConnectHost, hres, hf]

theorem tryConnectHost_fail_events (s : ConnState) (a : String) (hn : Bool)
    (oc : ConnectOutcome) (hh : s.handler ≠ 0)
    (hf : outcomeFails oc = true) :
    ∃ e : Int,
      (TryConnectHost s a hn oc).2.2 =
        [⟨s.handler, s.src, EventType.hostaddress, 0, Option.some a⟩,
         ⟨s.handler, s.src,
           if hn then EventType.connection_next else EventType.connection,
           e, Option.none⟩] := by
  cases oc with
  | socketFail err =>
    exact ⟨err, by simp [TryConnectHost, hostAddrEvs, attemptFailEvs, hh]⟩
  | connectRes fd res w =>
    by_cases hres : res = EINPROGRESS_c
    · cases w with
      | cancelled => simp [outcomeFails, hres] at hf
      | done e =>
        simp only [outcomeFails, if_pos hres, bne_iff_ne] at hf
        exact ⟨e, by
          simp [TryConnectHost, hres, hf, hostAddrEvs, attemptFailEvs, hh]⟩
    · simp only [outcomeFails, if_neg hres, bne_iff_ne] at hf
      exact ⟨res, by
        simp [TryConnectHost, hres, hf, hostAddrEvs, attemptFailEvs, hh]⟩

theorem doConnectLoop_all_fail :
    ∀ (addrs : List (String × ConnectOutcome)) (s : ConnState),
      s.handler ≠ 0 → (∀ x ∈ addrs, outcomeFails x.2 = true) →
      (DoConnectLoop s addrs).1 = false ∧
      (DoConnectLoop s addrs).2.1.state = SocketState.closed ∧
      (DoConnectLoop s addrs).2.2.getLast? =
        Option.some ⟨s.handler, s.src, EventType.connection, ECONNABORTED_c,
          Option.none⟩ := by
  intro addrs
  induction addrs with
  | nil =>
    intro s hh _
    refine ⟨rfl, rfl, ?_⟩
    simp [DoConnectLoop, hh]
  | cons p rest ih =>
    intro s hh hall
    obtain ⟨a, oc⟩ := p
    have hf : outcomeFails oc = true := hall (a, oc) (List.mem_cons_self _ _)
    have hr0 : (TryConnectHost s a (!rest.isEmpty) oc).1 = 0 :=
      tryConnectHost_fails_fst s a (!rest.isEmpty) oc hf
    have hpres := tryConnectHost_handler_src s a (!rest.isEmpty) oc
    have hh' : (TryConnectHost s a (!rest.isEmpty) oc).2.1.handler ≠ 0 := by
      rw [hpres.1]; exact hh
    have hrest := ih (TryConnectHost s a (!rest.isEmpty) oc).2.1 hh'
      (fun x hx => hall x (List.mem_cons_of_mem _ hx))
    have hne : (DoConnectLoop (TryConnectHost s a (!rest.isEmpty) oc).2.1
        rest).2.2 ≠ [] := by
      intro hemp
      rw [hemp] at hrest
      exact absurd hrest.2.2 (by simp)
    simp only [DoConnectLoop, hr0]
    rw [if_neg (by decide), if_neg (by simp)]
    refine ⟨hrest.1, hrest.2.1, ?_⟩
    rw [List.getLast?_append_of_ne_nil _ hne, hrest.2.2, hpres.1, hpres.2]

/-- Counterexample to C1: a single resolved address whose `connect` fails
immediately with `ECONNREFUSED`.  Since it is the last address,
`TryConnectHost` emits `Connection(ECONNREFUSED)`; the loop then falls
through and emits `Connection(ECONNABORTED)` anyway — the code has no
"only if no Connection has been emitted" guard, so two `Connection`
events are sent. -/
theorem C1_connect_loop_counterexample :
    (DoConnectLoop ⟨1, 7, -1, SocketState.connecting, 0⟩
        [("127.0.0.1:1",
          ConnectOutcome.connectRes 3 ECONNREFUSED_c (WaitOutcome.done 0))]).2.2 =
      [⟨1, 7, EventType.hostaddress, 0, Option.some "127.0.0.1:1"⟩,
       ⟨1, 7, EventType.connection, ECONNREFUSED_c, Option.none⟩,
       ⟨1, 7, EventType.connection, ECONNABORTED_c, Option.none⟩] ∧
    ECONNREFUSED_c ≠ ECONNABORTED_c :=
  ⟨rfl, by decide⟩

/-- C1 (amended): when an attempt on a resolved address fails, the worker
emits `ConnectionNext(err)` if more addresses remain and `Connection(err)`
if it was the last address (each attempt preceded by its `HostAddress`
event); and after the loop has tried every resolved address without
success, a `Connection(ECONNABORTED)` event is always emitted (whenever a
handler is set) and the state set to `closed` — even when a `Connection`
event was already emitted for the last failed address; the code has no
"only if no Connection has been emitted" guard. -/
theorem C1_connect_loop_amended (s : ConnState) (a : String) (hn : Bool)
    (oc : ConnectOutcome) (addrs : List (String × ConnectOutcome))
    (hh : s.handler ≠ 0) :
    (outcomeFails oc = true →
      ∃ e : Int,
        (TryConnectHost s a hn oc).2.2 =
          [⟨s.handler, s.src, EventType.hostaddress, 0, Option.some a⟩,
           ⟨s.handler, s.src,
             if hn then EventType.connection_next else EventType.connection,
             e, Option.none⟩]) ∧
    ((∀ x ∈ addrs, outcomeFails x.2 = true) →
      (DoConnectLoop s addrs).1 = false ∧
      (DoConnectLoop s addrs).2.1.state = SocketState.closed ∧
      (DoConnectLoop s addrs).2.2.getLast? =
        Option.some ⟨s.handler, s.src, EventType.connection, ECONNABORTED_c,
          Option.none⟩) :=
  ⟨fun hf => tryConnectHost_fail_events s a hn oc hh hf,
   fun hall => doConnectLoop_all_fail addrs s hh hall⟩

/-- Witness for C1 (amended): a socket()-failure on a non-last address
emits `HostAddress` then `ConnectionNext`; an empty exhausted loop emits
the final `Connection(ECONNABORTED)`. -/
theorem C1_connect_loop_amended_witness :
    (∃ e : Int,
      (TryConnectHost ⟨1, 7, -1, SocketState.connecting, 0⟩ "a" true
          (ConnectOutcome.socketFail EMFILE_c)).2.2 =
        [⟨1, 7, EventType.hostaddress, 0, Option.some "a"⟩,
         ⟨1, 7, EventType.connection_next, e, Option.none⟩]) ∧
    (DoConnectLoop ⟨1, 7, -1, SocketState.connecting, 0⟩ []).2.2.getLast? =
      Option.some ⟨1, 7, EventType.connection, ECONNABORTED_c, Option.none⟩ := by
  have h := C1_connect_loop_amended ⟨1, 7, -1, SocketState.connecting, 0⟩ "a"
    true (ConnectOutcome.socketFail EMFILE_c) [] (by decide)
  refine ⟨?_, (h.2 (by simp)).2.2⟩
  have h1 := h.1 rfl
  simpa using h1

end FzSocket

